import Mathlib

/-!
# Verification of `polyhedron_analysis.py` (WMD-group/polyhedron_distortion)

Shallow embedding of the octahedron-distortion analysis pipeline.
Machine floats are modelled by exact fields (`ℚ` for executable checks,
`ℝ` where square roots are needed).  The external collaborators
(pymatgen's `CrystalNN` neighbour finder and `HungarianOrderMatcher`)
are modelled by their outputs: the ranked candidate list `nn_info` and
the matcher triple `(inds, u, v)`; the parts of the source that consume
those outputs (sorting/truncation, the affine transform and re-ordering
in `match_molecules`) are embedded from the source.
-/

namespace Poly

/-- A 3-vector of coordinates (a row of a numpy `(n,3)` array). -/
abbrev Vec3 (K : Type) := Fin 3 → K

/-- A 3×3 matrix, `M i j` being row `i`, column `j` (numpy convention). -/
abbrev Mat3 (K : Type) := Fin 3 → Fin 3 → K

/-- The all-zeros 3-vector, `np.zeros(3)`. -/
def zero3 {K : Type} [Field K] : Vec3 K := fun _ => 0

/-- A pymatgen `Molecule`, reduced to its `cart_coords` list (the species
are uniformly the placeholder `H` in the source and carry no geometry). -/
abbrev Molecule (K : Type) := List (Vec3 K)

/-- A site of a pymatgen `Structure`: only its Cartesian coordinates matter. -/
structure Site (K : Type) where
  coords : Vec3 K

/-- A lattice: its three row vectors (pymatgen's `lattice.matrix`). -/
structure Lattice (K : Type) where
  matrix : Fin 3 → Vec3 K

/-- `lattice.get_cartesian_coords(frac)` = `np.dot(frac, lattice.matrix)`. -/
def Lattice.get_cartesian_coords {K : Type} [Field K] (lat : Lattice K)
    (frac : Vec3 K) : Vec3 K :=
  fun j => ∑ i, frac i * lat.matrix i j

/-- A pymatgen `Structure`: a site table (total map, modelling valid
indexing) and a lattice. -/
structure Structure (K : Type) where
  sites : ℕ → Site K
  lattice : Lattice K

/-- One entry of `CrystalNN.get_nn_info(...)`: the fields the pipeline
reads (`site_index`, `image`, `weight`). -/
structure NNInfo (K : Type) where
  site_index : ℕ
  image : Vec3 K
  weight : K

/-- The parsed contents of `basis/octahedron_basis.json`: irrep label →
list of basis vectors, in insertion order. -/
abbrev DictBasis (K : Type) := List (String × List (List K))

/-- Lines 102–105: flatten the basis dict into one list of basis vectors,
iterating irreps in insertion order. -/
def irrep_distortions_of {K : Type} (dict_basis : DictBasis K) : List (List K) :=
  (dict_basis.map Prod.snd).flatten

/-- Lines 81–88: the ideal octahedron vertex list, in source order. -/
def ideal_coords (K : Type) [Field K] : List (Vec3 K) :=
  [![-1, 0, 0],
   ![0, -1, 0],
   ![0, 0, -1],
   ![0, 0, 1],
   ![0, 1, 0],
   ![1, 0, 0]]

/-- Lines 17–32, `construct_molecule`: coords are a zero row followed by
`(site_coords + lattice.get_cartesian_coords(image) - origin) / ave_bond`
for each selected neighbour (`centre_atom` is unused by the geometry,
exactly as in the source where it only fed the commented-out species). -/
def construct_molecule {K : Type} [Field K] (struct : Structure K)
    (centre_atom : ℕ) (nearest_neighbour_indices : List ℕ) (ave_bond : K)
    (images : List (Vec3 K)) (origin : Vec3 K) : Molecule K :=
  zero3 :: List.zipWith
    (fun site image => fun j =>
      ((struct.sites site).coords j
        + struct.lattice.get_cartesian_coords image j - origin j) / ave_bond)
    nearest_neighbour_indices images

/-- Lines 35–40, `construct_molecule_ideal`: a zero row prepended to the
ideal coordinates (the species argument is unused in the source). -/
def construct_molecule_ideal {K : Type} [Field K]
    (ideal_coords : List (Vec3 K)) : Molecule K :=
  zero3 :: ideal_coords

/-- Lines 49–53: the affine transform `SymmOp [[uᵀ, v], [0, 1]]` applied to
every point of the molecule: `x ↦ uᵀ x + v`. -/
def apply_symmop {K : Type} [Field K] (u : Mat3 K) (v : Vec3 K)
    (mol : Molecule K) : Molecule K :=
  mol.map (fun x => fun j => (∑ i, u i j * x i) + v j)

/-- Lines 54–55: re-order the molecule's sites by the index list `inds`. -/
def reorder_sites {K : Type} [Field K] (mol : Molecule K) (inds : List ℕ) :
    Molecule K :=
  inds.map (fun idx => mol.getD idx zero3)

/-- Lines 43–57, `match_molecules`.  The matcher call
`HungarianOrderMatcher(reference).match(transform)` is external (pymatgen);
its output `(inds, u, v)` is taken as input here, and the source's use of
that output (affine transform, re-ordering, returning `u`) is embedded. -/
def match_molecules {K : Type} [Field K] (molecule_transform : Molecule K)
    (inds : List ℕ) (u : Mat3 K) (v : Vec3 K) :
    Molecule K × Mat3 K × Vec3 K :=
  (reorder_sites (apply_symmop u v molecule_transform) inds, u, v)

/-- `np.ravel` of an `(n,3)` coordinate array. -/
def ravel {K : Type} (mol : Molecule K) : List K :=
  (mol.map (fun x => [x 0, x 1, x 2])).flatten

/-- `np.tensordot(a, b, axes=1)` for two flat vectors: the dot product
(lengths agree in every use, matching numpy's shape requirement). -/
def dotL {K : Type} [Field K] (a b : List K) : K :=
  (List.zipWith (fun x y => x * y) a b).sum

/-- Lines 60–65, `calc_displacement`: project the raveled coordinate
difference, with its first 3 scalar components dropped, onto every basis
vector. -/
def calc_displacement {K : Type} [Field K]
    (pymatgen_molecule pymatgen_molecule_ideal : Molecule K)
    (irrep_distortions : List (List K)) : List K :=
  irrep_distortions.map (fun b => dotL b
    ((ravel (List.zipWith (fun x y => x - y)
        pymatgen_molecule pymatgen_molecule_ideal)).drop 3))

/-- `np.eye(3)`. -/
def eye3 {K : Type} [Field K] : Mat3 K := fun i j => if i = j then 1 else 0

/-- Lines 68–72, `calc_displacement_centre`:
`np.dot((coords - origin)/ave_bond, matrix_rotation)` followed by the
(identity) contraction `np.tensordot(np.eye(3), ·, axes=1)`. -/
def calc_displacement_centre {K : Type} [Field K] (struct : Structure K)
    (centre_atom : ℕ) (origin : Vec3 K) (ave_bond : K)
    (matrix_rotation : Mat3 K) : Vec3 K :=
  let displacement_centre : Vec3 K := fun k =>
    ∑ i, (((struct.sites centre_atom).coords i - origin i) / ave_bond)
      * matrix_rotation i k
  fun j => ∑ k, eye3 j k * displacement_centre k

/-- Lines 118–121: sort the neighbour candidates by descending weight
(`key=lambda x: -x['weight']`, a stable sort) and keep the first
`len(ideal_coords)` of them. -/
def temp_dict_of {K : Type} [Field K] [LinearOrder K]
    (nn_info : List (NNInfo K)) : List (NNInfo K) :=
  (nn_info.mergeSort (fun a b => decide (b.weight ≤ a.weight))).take
    (ideal_coords K).length

/-- Line 122: the guard condition `len(ideal_coords) < 6` of the
`failed to find nearest neighbours` exit branch, exactly as written in the
source (note it tests the constant list `ideal_coords`, not the selected
candidates). -/
def failed_nn_guard (K : Type) [Field K] : Bool :=
  decide ((ideal_coords K).length < 6)

/-- Lines 127–131: each selected neighbour's true Cartesian position,
`struct[d['site_index']].coords + lattice.get_cartesian_coords(d['image'])`. -/
def neighbour_position {K : Type} [Field K] (struct : Structure K)
    (d : NNInfo K) : Vec3 K :=
  fun j => (struct.sites d.site_index).coords j
    + struct.lattice.get_cartesian_coords d.image j

/-- Lines 127–131: the array `temp_coords` of the selected neighbours'
Cartesian positions. -/
def temp_coords_of {K : Type} [Field K] (struct : Structure K)
    (temp_dict : List (NNInfo K)) : List (Vec3 K) :=
  temp_dict.map (neighbour_position struct)

/-- Line 132: `molecule_origin = np.mean(temp_coords, axis=0)`. -/
def molecule_origin_of {K : Type} [Field K] (temp_coords : List (Vec3 K)) :
    Vec3 K :=
  fun j => (temp_coords.map (fun p => p j)).sum / (temp_coords.length : K)

/-- Lines 133–134: `ave_bond` = mean Euclidean distance of the neighbour
positions from `molecule_origin`. -/
noncomputable def ave_bond_of (temp_coords : List (Vec3 ℝ))
    (molecule_origin : Vec3 ℝ) : ℝ :=
  ((temp_coords.map (fun p =>
      Real.sqrt (∑ i, (p i - molecule_origin i) * (p i - molecule_origin i)))).sum)
    / (temp_coords.length : ℝ)

/-- Lines 164–169: the per-irrep slice sums `sum(sq[count:count+dim])`,
advancing `count` by each irrep's dimension. -/
def temp_list_aux {K : Type} [Field K] (sq : List K) :
    List (List (List K)) → ℕ → List K
  | [], _ => []
  | g :: rest, count =>
    ((sq.drop count).take g.length).sum :: temp_list_aux sq rest (count + g.length)

/-- Lines 162–169: square the projections and sum them per irrep, in the
basis dict's insertion order. -/
def temp_list_of {K : Type} [Field K] (sq : List K)
    (dict_basis : DictBasis K) : List K :=
  temp_list_aux sq (dict_basis.map Prod.snd) 0

/-- Lines 79–172, `calc_distortions_from_struct_octahedron_withcentre`.
External inputs made explicit: `dict_basis` (the parsed basis JSON),
`temp_dict` (the weight-sorted, truncated `CrystalNN` candidate list of
lines 118–121, cf. `temp_dict_of`), and the matcher output `(inds, u, v)`
consumed by `match_molecules`. -/
noncomputable def calc_distortions_from_struct_octahedron_withcentre
    (mp_struct : Structure ℝ) (centre_atom : ℕ) (dict_basis : DictBasis ℝ)
    (temp_dict : List (NNInfo ℝ)) (inds : List ℕ) (u : Mat3 ℝ) (v : Vec3 ℝ) :
    List ℝ :=
  let irrep_distortions := irrep_distortions_of dict_basis
  let temp_coords := temp_coords_of mp_struct temp_dict
  let molecule_origin := molecule_origin_of temp_coords
  let ave_bond := ave_bond_of temp_coords molecule_origin
  let pymatgen_molecule := construct_molecule mp_struct centre_atom
    (temp_dict.map NNInfo.site_index) ave_bond
    (temp_dict.map NNInfo.image) molecule_origin
  let pymatgen_molecule_ideal := construct_molecule_ideal (ideal_coords ℝ)
  let matched := match_molecules pymatgen_molecule inds u v
  let matrix_rotation := matched.2.1
  let distortion_amplitudes := calc_displacement matched.1
    pymatgen_molecule_ideal irrep_distortions
  let centre_vec := calc_displacement_centre mp_struct centre_atom
    molecule_origin ave_bond matrix_rotation
  let centre_atom_amplitude := Real.sqrt (∑ j, centre_vec j * centre_vec j)
  let squares := distortion_amplitudes.map (fun x => x * x)
  let temp_list := temp_list_of squares dict_basis
  ((temp_list.map Real.sqrt).drop 3) ++ [centre_atom_amplitude]

/-- Lines 75–76, `calc_distortions_from_struct_octahedron`: the first four
entries of the `withcentre` result. -/
noncomputable def calc_distortions_from_struct_octahedron
    (mp_struct : Structure ℝ) (centre_atom : ℕ) (dict_basis : DictBasis ℝ)
    (temp_dict : List (NNInfo ℝ)) (inds : List ℕ) (u : Mat3 ℝ) (v : Vec3 ℝ) :
    List ℝ :=
  (calc_distortions_from_struct_octahedron_withcentre mp_struct centre_atom
    dict_basis temp_dict inds u v).take 4

/-! ## Helper lemmas -/

lemma temp_list_aux_length {K : Type} [Field K] (sq : List K) :
    ∀ (groups : List (List (List K))) (count : ℕ),
    (temp_list_aux sq groups count).length = groups.length := by
  intro groups
  induction groups with
  | nil => intro count; rfl
  | cons g rest ih => intro count; simp [temp_list_aux, ih]

lemma temp_list_aux_flatten_map {K : Type} [Field K] (f : List K → K) :
    ∀ (groups : List (List (List K))) (pre : List K),
    temp_list_aux (pre ++ (groups.map (fun g => g.map f)).flatten) groups
        pre.length
      = groups.map (fun g => (g.map f).sum) := by
  intro groups
  induction groups with
  | nil => intro pre; rfl
  | cons g rest ih =>
    intro pre
    have hdrop : (pre ++ (g.map f
          ++ (rest.map (fun g => g.map f)).flatten)).drop pre.length
        = g.map f ++ (rest.map (fun g => g.map f)).flatten :=
      List.drop_left pre _
    have htake : (g.map f
          ++ (rest.map (fun g => g.map f)).flatten).take g.length
        = g.map f := List.take_left' (by simp)
    have htail : temp_list_aux (pre ++ (g.map f
          ++ (rest.map (fun g => g.map f)).flatten)) rest
          (pre.length + g.length)
        = rest.map (fun g => (g.map f).sum) := by
      have h2 := ih (pre ++ g.map f)
      simpa [List.append_assoc, List.length_append] using h2
    simp only [List.map_cons, List.flatten_cons, temp_list_aux, hdrop, htake,
      htail]

lemma dotL_of_forall_zero {K : Type} [Field K] :
    ∀ (a b : List K), (∀ y ∈ b, y = 0) → dotL a b = 0
  | [], b, _ => by simp [dotL]
  | x :: a, [], _ => by simp [dotL]
  | x :: a, y :: b, h => by
    have h0 : y = 0 := h y (List.mem_cons_self y b)
    have hr := dotL_of_forall_zero a b (fun z hz => h z (List.mem_cons_of_mem y hz))
    simp only [dotL, List.zipWith_cons_cons, List.sum_cons] at hr ⊢
    rw [h0, mul_zero, zero_add, hr]

lemma ravel_sub_self_zero {K : Type} [Field K] (mol : Molecule K) :
    ∀ y ∈ ravel (List.zipWith (fun x y => x - y) mol mol), y = 0 := by
  intro y hy
  rw [List.zipWith_same] at hy
  simp only [ravel, List.map_map, List.mem_flatten] at hy
  obtain ⟨l, hl, hyl⟩ := hy
  obtain ⟨x, hx, rfl⟩ := List.mem_map.mp hl
  simp only [Function.comp] at hyl
  have hz : ∀ j : Fin 3, (x - x) j = 0 := fun j => sub_self (x j)
  simp only [hz] at hyl
  simp only [List.mem_cons, List.not_mem_nil, or_false] at hyl
  rcases hyl with h | h | h <;> exact h

lemma temp_list_aux_all_zero {K : Type} [Field K] (sq : List K)
    (h : ∀ y ∈ sq, y = 0) :
    ∀ (groups : List (List (List K))) (count : ℕ) (z : K),
      z ∈ temp_list_aux sq groups count → z = 0 := by
  intro groups
  induction groups with
  | nil => intro count z hz; simp [temp_list_aux] at hz
  | cons g rest ih =>
    intro count z hz
    simp only [temp_list_aux, List.mem_cons] at hz
    rcases hz with rfl | hz
    · exact List.sum_eq_zero (fun y hy =>
        h y (List.mem_of_mem_drop (List.mem_of_mem_take hy)))
    · exact ih _ z hz

lemma construct_molecule_eq_map {K : Type} [Field K] (struct : Structure K)
    (centre_atom : ℕ) (td : List (NNInfo K)) (ab : K) (o : Vec3 K) :
    construct_molecule struct centre_atom (td.map NNInfo.site_index) ab
        (td.map NNInfo.image) o
      = zero3 :: (temp_coords_of struct td).map
          (fun p => fun j => (p j - o j) / ab) := by
  simp only [construct_molecule, temp_coords_of, List.zipWith_map,
    List.zipWith_same, List.map_map]
  rfl

/-! ## Claims -/

/-- C1: the spec demands that with fewer than 6 usable neighbour candidates
the analysis fail (`CoordinationError`, non-zero exit) and produce no
numeric result.  The source's guard on line 122 tests
`len(ideal_coords) < 6`, a constant-false condition (`ideal_coords` always
has 6 entries), so even on an empty candidate list — where the retained
shell has fewer than 6 members — the error branch does not fire and the
pipeline proceeds. -/
theorem C1_coordination_guard_never_fires :
    (temp_dict_of ([] : List (NNInfo ℚ))).length < 6
      ∧ failed_nn_guard ℚ = false := by
  constructor
  · simp [temp_dict_of]
  · rfl

/-- C6: the ideal reference molecule is the zero vector followed by the six
signed unit-axis vectors in the order −x, −y, −z, +z, +y, +x. -/
theorem C6_ideal_reference_molecule :
    construct_molecule_ideal (ideal_coords ℚ) =
      [(fun _ => 0),
       (fun j => if j = 0 then -1 else 0),
       (fun j => if j = 1 then -1 else 0),
       (fun j => if j = 2 then -1 else 0),
       (fun j => if j = 2 then 1 else 0),
       (fun j => if j = 1 then 1 else 0),
       (fun j => if j = 0 then 1 else 0)] := by
  decide

/-- C7: the neighbour selector sorts the candidate list by descending
weight and retains exactly the first 6 entries of the sorted list. -/
theorem C7_sort_descending_take_six (nn_info : List (NNInfo ℚ)) :
    ∃ l : List (NNInfo ℚ), List.Perm nn_info l
      ∧ l.Pairwise (fun a b => b.weight ≤ a.weight)
      ∧ temp_dict_of nn_info = l.take 6 := by
  refine ⟨nn_info.mergeSort (fun a b => decide (b.weight ≤ a.weight)), ?_, ?_, rfl⟩
  · exact (List.mergeSort_perm nn_info _).symm
  · have hs := @List.sorted_mergeSort (NNInfo ℚ)
      (fun a b => decide (b.weight ≤ a.weight))
      (fun a b c hab hbc => by
        simp only [decide_eq_true_eq] at hab hbc ⊢
        exact le_trans hbc hab)
      (fun a b => by simpa using le_total b.weight a.weight)
      nn_info
    exact hs.imp (fun h => by simpa using h)

/-- C9: every entry of the result vector (each irrep distortion amplitude
and the trailing central-displacement magnitude) is non-negative. -/
theorem C9_result_nonneg (mp_struct : Structure ℝ) (centre_atom : ℕ)
    (dict_basis : DictBasis ℝ) (temp_dict : List (NNInfo ℝ)) (inds : List ℕ)
    (u : Mat3 ℝ) (v : Vec3 ℝ) (n : ℕ) :
    0 ≤ (calc_distortions_from_struct_octahedron_withcentre mp_struct
      centre_atom dict_basis temp_dict inds u v).getD n 0 := by
  have hmem : ∀ x ∈ calc_distortions_from_struct_octahedron_withcentre
      mp_struct centre_atom dict_basis temp_dict inds u v, 0 ≤ x := by
    intro x hx
    simp only [calc_distortions_from_struct_octahedron_withcentre,
      List.mem_append, List.mem_singleton] at hx
    rcases hx with hx | hx
    · have hx2 := List.mem_of_mem_drop hx
      rcases List.mem_map.mp hx2 with ⟨y, _, rfl⟩
      exact Real.sqrt_nonneg y
    · rw [hx]; exact Real.sqrt_nonneg _
  rw [List.getD_eq_getElem?_getD]
  cases h : (calc_distortions_from_struct_octahedron_withcentre mp_struct
      centre_atom dict_basis temp_dict inds u v)[n]? with
  | none => simp
  | some x => simpa using hmem x (List.getElem?_mem h)

/-- C10: `calc_distortions_from_struct_octahedron` returns exactly the
first 4 entries of the `withcentre` result vector; as that vector is the
per-irrep amplitudes (one per basis irrep beyond the first 3) followed by
the single central-displacement scalar, with the 7-irrep octahedron basis
this keeps the 4 irrep amplitudes and omits the central scalar. -/
theorem C10_take_first_four (mp_struct : Structure ℝ) (centre_atom : ℕ)
    (dict_basis : DictBasis ℝ) (temp_dict : List (NNInfo ℝ)) (inds : List ℕ)
    (u : Mat3 ℝ) (v : Vec3 ℝ) :
    calc_distortions_from_struct_octahedron mp_struct centre_atom dict_basis
        temp_dict inds u v
      = (calc_distortions_from_struct_octahedron_withcentre mp_struct
          centre_atom dict_basis temp_dict inds u v).take 4
    ∧ (calc_distortions_from_struct_octahedron_withcentre mp_struct
          centre_atom dict_basis temp_dict inds u v).length
        = (dict_basis.length - 3) + 1 := by
  constructor
  · rfl
  · simp [calc_distortions_from_struct_octahedron_withcentre, temp_list_of,
      temp_list_aux_length]

/-- C2: the reported distortion amplitudes arise from the displacement
vector `d` (the flattened coordinate difference, aligned minus ideal, with
its first 3 scalar components dropped): for each irrep, in the basis
table's insertion order, the amplitude is the square root of the sum over
that irrep's basis vectors `b` of `(b · d)^2`, and the first 3 per-irrep
amplitudes are dropped. -/
theorem C2_per_irrep_amplitudes (mol ideal : Molecule ℝ)
    (dict_basis : DictBasis ℝ) :
    ((temp_list_of ((calc_displacement mol ideal
          (irrep_distortions_of dict_basis)).map (fun x => x * x))
        dict_basis).map Real.sqrt).drop 3
      = (dict_basis.map (fun p => Real.sqrt ((p.2.map (fun b =>
          (dotL b ((ravel (List.zipWith (fun x y => x - y) mol ideal)).drop 3))
            ^ 2)).sum))).drop 3 := by
  set d := (ravel (List.zipWith (fun x y => x - y) mol ideal)).drop 3 with hd
  have h1 : (calc_displacement mol ideal (irrep_distortions_of dict_basis)).map
        (fun x => x * x)
      = ((dict_basis.map Prod.snd).map (fun g =>
          g.map (fun b => dotL b d * dotL b d))).flatten := by
    simp only [calc_displacement, irrep_distortions_of, List.map_flatten,
      List.map_map]
    refine congrArg List.flatten (List.map_congr_left (fun p hp => ?_))
    simp [Function.comp, List.map_map, ← hd]
  have key : temp_list_of ((calc_displacement mol ideal
        (irrep_distortions_of dict_basis)).map (fun x => x * x)) dict_basis
      = (dict_basis.map Prod.snd).map (fun g =>
          (g.map (fun b => dotL b d * dotL b d)).sum) := by
    rw [temp_list_of, h1]
    have h2 := temp_list_aux_flatten_map (fun b => dotL b d * dotL b d)
      (dict_basis.map Prod.snd) []
    simpa using h2
  rw [key]
  rw [List.map_map, List.map_map]
  refine congrArg (List.drop 3) (List.map_congr_left (fun p hp => ?_))
  simp [Function.comp, pow_two]

/-- C5: the central-displacement scalar is the Euclidean norm of
`(true_centre_position - molecule_origin) / ave_bond` rotated by the
alignment rotation matrix, and it is appended as the final element of the
result vector, after the per-irrep distortion amplitudes. -/
theorem C5_centre_scalar_appended (mp_struct : Structure ℝ) (centre_atom : ℕ)
    (dict_basis : DictBasis ℝ) (temp_dict : List (NNInfo ℝ)) (inds : List ℕ)
    (u : Mat3 ℝ) (v : Vec3 ℝ) :
    calc_distortions_from_struct_octahedron_withcentre mp_struct centre_atom
        dict_basis temp_dict inds u v
      = ((temp_list_of ((calc_displacement
            ((match_molecules (construct_molecule mp_struct centre_atom
                (temp_dict.map NNInfo.site_index)
                (ave_bond_of (temp_coords_of mp_struct temp_dict)
                  (molecule_origin_of (temp_coords_of mp_struct temp_dict)))
                (temp_dict.map NNInfo.image)
                (molecule_origin_of (temp_coords_of mp_struct temp_dict)))
              inds u v).1)
            (construct_molecule_ideal (ideal_coords ℝ))
            (irrep_distortions_of dict_basis)).map (fun x => x * x))
          dict_basis).map Real.sqrt).drop 3
        ++ [Real.sqrt (∑ j, (∑ i,
            (((mp_struct.sites centre_atom).coords i
                - molecule_origin_of (temp_coords_of mp_struct temp_dict) i)
              / ave_bond_of (temp_coords_of mp_struct temp_dict)
                  (molecule_origin_of (temp_coords_of mp_struct temp_dict)))
            * u i j) ^ 2)] := by
  have hcv : ∀ (o : Vec3 ℝ) (ab : ℝ) (j : Fin 3),
      calc_displacement_centre mp_struct centre_atom o ab u j
        = ∑ i, (((mp_struct.sites centre_atom).coords i - o i) / ab) * u i j := by
    intro o ab j
    simp [calc_displacement_centre, eye3, ite_mul, one_mul, zero_mul,
      Finset.sum_ite_eq]
  simp only [calc_distortions_from_struct_octahedron_withcentre,
    match_molecules]
  congr 1
  congr 1
  congr 1
  refine Finset.sum_congr rfl (fun j _ => ?_)
  rw [hcv, pow_two]

/-- C8: for an orthogonal rotation matrix, the central-displacement
magnitude is the same as without applying the rotation: the Euclidean norm
of `calc_displacement_centre` equals the Euclidean norm of the raw vector
`(centre_coords - origin) / ave_bond`. -/
theorem C8_rotation_invariant_norm (struct : Structure ℝ) (centre_atom : ℕ)
    (origin : Vec3 ℝ) (ave_bond : ℝ) (M : Mat3 ℝ)
    (hM : ∀ i k, (∑ j, M i j * M k j) = if i = k then (1 : ℝ) else 0) :
    Real.sqrt (∑ j,
        calc_displacement_centre struct centre_atom origin ave_bond M j ^ 2)
      = Real.sqrt (∑ i,
        (((struct.sites centre_atom).coords i - origin i) / ave_bond) ^ 2) := by
  have hcv : ∀ j, calc_displacement_centre struct centre_atom origin ave_bond M j
      = ∑ i, (((struct.sites centre_atom).coords i - origin i) / ave_bond)
          * M i j := by
    intro j
    simp [calc_displacement_centre, eye3, ite_mul, one_mul, zero_mul,
      Finset.sum_ite_eq]
  congr 1
  calc ∑ j, calc_displacement_centre struct centre_atom origin ave_bond M j ^ 2
      = ∑ j : Fin 3, ∑ i : Fin 3, ∑ k : Fin 3,
          ((((struct.sites centre_atom).coords i - origin i) / ave_bond) * M i j)
          * ((((struct.sites centre_atom).coords k - origin k) / ave_bond) * M k j) := by
        refine Finset.sum_congr rfl (fun j _ => ?_)
        rw [hcv, pow_two, Finset.sum_mul_sum]
    _ = ∑ i : Fin 3, ∑ k : Fin 3,
          ((((struct.sites centre_atom).coords i - origin i) / ave_bond)
            * (((struct.sites centre_atom).coords k - origin k) / ave_bond))
          * ∑ j, M i j * M k j := by
        rw [Finset.sum_comm]
        refine Finset.sum_congr rfl (fun i _ => ?_)
        rw [Finset.sum_comm]
        refine Finset.sum_congr rfl (fun k _ => ?_)
        rw [Finset.mul_sum]
        exact Finset.sum_congr rfl (fun j _ => by ring)
    _ = ∑ i, (((struct.sites centre_atom).coords i - origin i) / ave_bond) ^ 2 := by
        simp only [hM, mul_ite, mul_one, mul_zero]
        simp [Finset.sum_ite_eq, pow_two]

/-- Witness for C8: a concrete structure, origin and the identity rotation
(which is orthogonal). -/
theorem C8_rotation_invariant_norm_witness :
    Real.sqrt (∑ j, calc_displacement_centre
        (Structure.mk (fun _ => Site.mk ![1, 2, 3]) (Lattice.mk (fun _ => ![0, 0, 0])))
        0 zero3 1 eye3 j ^ 2)
      = Real.sqrt (∑ i,
        (((Structure.sites
            (Structure.mk (fun _ => Site.mk ![1, 2, 3])
              (Lattice.mk (fun _ => ![0, 0, 0]))) 0).coords i - zero3 i) / 1) ^ 2) :=
  C8_rotation_invariant_norm
    (Structure.mk (fun _ => Site.mk ![1, 2, 3]) (Lattice.mk (fun _ => ![0, 0, 0])))
    0 zero3 1 eye3
    (by
      intro i k
      fin_cases i <;> fin_cases k <;>
        simp [eye3, Fin.sum_univ_three])

/-- Claim-side formula (C3): the arithmetic mean of the 6 selected
neighbour positions (not the centre atom's position). -/
noncomputable def claim_molecule_origin (mp_struct : Structure ℝ)
    (td : List (NNInfo ℝ)) : Vec3 ℝ :=
  fun j => (∑ k ∈ Finset.range 6,
    neighbour_position mp_struct (td.getD k (NNInfo.mk 0 zero3 0)) j) / 6

/-- Claim-side formula (C3): the mean Euclidean distance from the 6
neighbour positions to the claimed molecule origin. -/
noncomputable def claim_ave_bond (mp_struct : Structure ℝ)
    (td : List (NNInfo ℝ)) : ℝ :=
  (∑ k ∈ Finset.range 6, Real.sqrt (∑ m,
    (neighbour_position mp_struct (td.getD k (NNInfo.mk 0 zero3 0)) m
      - claim_molecule_origin mp_struct td m) ^ 2)) / 6

/-- C3: for a shell of 6 selected neighbours, the constructed molecule has
point 0 equal to the zero vector, and point `i + 1` equal to
`(neighbour_position i - molecule_origin) / ave_bond`, with the origin the
mean of the 6 neighbour positions and `ave_bond` their mean distance to
that origin. -/
theorem C3_molecule_points (mp_struct : Structure ℝ) (centre_atom : ℕ)
    (d1 d2 d3 d4 d5 d6 : NNInfo ℝ) (i : Fin 6) :
    (construct_molecule mp_struct centre_atom
        ([d1, d2, d3, d4, d5, d6].map NNInfo.site_index)
        (ave_bond_of (temp_coords_of mp_struct [d1, d2, d3, d4, d5, d6])
          (molecule_origin_of (temp_coords_of mp_struct [d1, d2, d3, d4, d5, d6])))
        ([d1, d2, d3, d4, d5, d6].map NNInfo.image)
        (molecule_origin_of
          (temp_coords_of mp_struct [d1, d2, d3, d4, d5, d6]))).getD 0 zero3
      = zero3
    ∧ (construct_molecule mp_struct centre_atom
        ([d1, d2, d3, d4, d5, d6].map NNInfo.site_index)
        (ave_bond_of (temp_coords_of mp_struct [d1, d2, d3, d4, d5, d6])
          (molecule_origin_of (temp_coords_of mp_struct [d1, d2, d3, d4, d5, d6])))
        ([d1, d2, d3, d4, d5, d6].map NNInfo.image)
        (molecule_origin_of
          (temp_coords_of mp_struct [d1, d2, d3, d4, d5, d6]))).getD (i + 1) zero3
      = fun j =>
        (neighbour_position mp_struct
            ([d1, d2, d3, d4, d5, d6].getD (i : ℕ) (NNInfo.mk 0 zero3 0)) j
          - claim_molecule_origin mp_struct [d1, d2, d3, d4, d5, d6] j)
        / claim_ave_bond mp_struct [d1, d2, d3, d4, d5, d6] := by
  have ho : molecule_origin_of (temp_coords_of mp_struct [d1, d2, d3, d4, d5, d6])
      = claim_molecule_origin mp_struct [d1, d2, d3, d4, d5, d6] := by
    funext j
    simp [molecule_origin_of, temp_coords_of, claim_molecule_origin,
      Finset.sum_range_succ]
    ring
  have hab : ave_bond_of (temp_coords_of mp_struct [d1, d2, d3, d4, d5, d6])
        (molecule_origin_of (temp_coords_of mp_struct [d1, d2, d3, d4, d5, d6]))
      = claim_ave_bond mp_struct [d1, d2, d3, d4, d5, d6] := by
    rw [ho]
    simp [ave_bond_of, claim_ave_bond, temp_coords_of, Finset.sum_range_succ,
      pow_two]
    ring
  rw [hab, ho]
  constructor
  · rfl
  · fin_cases i <;>
      (funext j; simp [construct_molecule, neighbour_position])

/-- C4: for a perfect octahedral input — the six selected neighbours sit
exactly at `c + L·w` for the ideal vertices `w` and any bond length
`L > 0`, and the centre atom sits exactly at the neighbour centroid `c` —
the analysis returns `[0, 0, 0, 0, 0]`.  The hypotheses record the
contracts of the external collaborators: `hsel` that the (external)
neighbour search resolved these six positions, `hbasis` that the basis
file holds the documented 7 irreps (3 trivial + Eg, T2g, T1u, T2u), and
`halign` that the (external) matcher superimposes the — here already
ideal — molecule exactly onto the ideal reference. -/
theorem C4_perfect_octahedron_zero (mp_struct : Structure ℝ) (centre_atom : ℕ)
    (dict_basis : DictBasis ℝ) (temp_dict : List (NNInfo ℝ)) (inds : List ℕ)
    (u : Mat3 ℝ) (v : Vec3 ℝ) (c : Vec3 ℝ) (L : ℝ) (hL : 0 < L)
    (hcentre : (mp_struct.sites centre_atom).coords = c)
    (hsel : temp_coords_of mp_struct temp_dict
      = (ideal_coords ℝ).map (fun w => fun j => c j + L * w j))
    (hbasis : dict_basis.length = 7)
    (halign : (match_molecules (construct_molecule_ideal (ideal_coords ℝ))
        inds u v).1
      = construct_molecule_ideal (ideal_coords ℝ)) :
    calc_distortions_from_struct_octahedron_withcentre mp_struct centre_atom
      dict_basis temp_dict inds u v = [0, 0, 0, 0, 0] := by
  have hL0 : L ≠ 0 := ne_of_gt hL
  have ho : molecule_origin_of (temp_coords_of mp_struct temp_dict) = c := by
    rw [hsel]
    funext j
    fin_cases j <;>
      (simp [molecule_origin_of, ideal_coords]; ring)
  have hab : ave_bond_of (temp_coords_of mp_struct temp_dict)
      (molecule_origin_of (temp_coords_of mp_struct temp_dict)) = L := by
    rw [ho, hsel]
    simp only [ave_bond_of, ideal_coords, List.map_cons, List.map_nil,
      List.sum_cons, List.sum_nil, List.length_cons, List.length_nil]
    norm_num [Fin.sum_univ_three]
    ring_nf
    exact Real.sqrt_sq hL.le
  have hmol : construct_molecule mp_struct centre_atom
      (temp_dict.map NNInfo.site_index) L (temp_dict.map NNInfo.image) c
      = construct_molecule_ideal (ideal_coords ℝ) := by
    rw [construct_molecule_eq_map, hsel, construct_molecule_ideal]
    congr 1
    rw [List.map_map]
    have hcomp : ∀ w ∈ ideal_coords ℝ,
        ((fun p => fun j => (p j - c j) / L)
          ∘ (fun w => fun j => c j + L * w j)) w = w := by
      intro w _
      funext j
      simp only [Function.comp]
      rw [show c j + L * w j - c j = L * w j by ring]
      exact mul_div_cancel_left₀ (w j) hL0
    rw [List.map_congr_left hcomp, List.map_id']
  have hdisp : calc_displacement (construct_molecule_ideal (ideal_coords ℝ))
      (construct_molecule_ideal (ideal_coords ℝ))
      (irrep_distortions_of dict_basis)
      = (irrep_distortions_of dict_basis).map (fun _ => 0) := by
    unfold calc_displacement
    refine List.map_congr_left (fun b _ => ?_)
    exact dotL_of_forall_zero b _ (fun y hy =>
      ravel_sub_self_zero _ y (List.mem_of_mem_drop hy))
  have hzero_sq : ∀ y ∈ ((irrep_distortions_of dict_basis).map
      (fun _ => (0 : ℝ))).map (fun x => x * x), y = 0 := by
    intro y hy
    rcases List.mem_map.mp hy with ⟨z, hz, rfl⟩
    rcases List.mem_map.mp hz with ⟨w, _, rfl⟩
    ring
  have htl : temp_list_of (((irrep_distortions_of dict_basis).map
      (fun _ => (0 : ℝ))).map (fun x => x * x)) dict_basis
      = List.replicate 7 (0 : ℝ) := by
    rw [List.eq_replicate_iff]
    refine ⟨?_, ?_⟩
    · rw [temp_list_of, temp_list_aux_length, List.length_map, hbasis]
    · intro b hb
      exact temp_list_aux_all_zero _ hzero_sq _ _ b hb
  have hctr : ∀ j, calc_displacement_centre mp_struct centre_atom c L u j = 0 := by
    intro j
    simp [calc_displacement_centre, hcentre]
  simp only [calc_distortions_from_struct_octahedron_withcentre]
  rw [hab, ho, hmol, halign]
  simp only [match_molecules]
  rw [hdisp, htl]
  simp [hctr, Real.sqrt_zero, List.replicate]

/-- Witness for C4: a concrete perfect octahedron — sites 0..5 at the six
ideal vertices (bond length 1), centre atom 6 at the centroid (the origin),
unit-cell images all zero, a 7-irrep basis table, and the identity matcher
output. -/
theorem C4_perfect_octahedron_zero_witness :
    calc_distortions_from_struct_octahedron_withcentre
      (Structure.mk (fun k => Site.mk ((ideal_coords ℝ).getD k zero3))
        (Lattice.mk (fun _ => zero3)))
      6
      [("t1", []), ("t2", []), ("t3", []), ("Eg", []),
       ("T2g", []), ("T1u", []), ("T2u", [])]
      [NNInfo.mk 0 zero3 1, NNInfo.mk 1 zero3 1, NNInfo.mk 2 zero3 1,
       NNInfo.mk 3 zero3 1, NNInfo.mk 4 zero3 1, NNInfo.mk 5 zero3 1]
      [0, 1, 2, 3, 4, 5, 6] eye3 zero3
      = [0, 0, 0, 0, 0] := by
  refine C4_perfect_octahedron_zero _ _ _ _ _ _ _ zero3 1 one_pos ?_ ?_ ?_ ?_
  · rfl
  · simp only [temp_coords_of, List.map_cons, List.map_nil, ideal_coords]
    norm_num [List.getD]
    refine ⟨?_, ?_, ?_, ?_, ?_, ?_⟩ <;>
      (funext j
       simp [neighbour_position, Lattice.get_cartesian_coords, zero3])
  · rfl
  · simp only [match_molecules, apply_symmop, reorder_sites,
      construct_molecule_ideal, ideal_coords, zero3, eye3,
      List.map_cons, List.map_nil, ite_mul, one_mul, zero_mul,
      Finset.sum_ite_eq, Finset.mem_univ, if_true, add_zero]
    simp [List.getD]
    rfl

end Poly
